import Mathlib

set_option maxRecDepth 100000

/-
Verification development for the video-compressor program (src/main.rs).

The program walks a directory tree, re-encodes eligible video files with an
external encoder, and keeps a persistent ledger (`Log`) of processed files so
that repeated runs are idempotent.  The definitions below are a shallow
embedding of the Rust source: pure functions become Lean functions, the
`HashMap` fields of `Log` become association lists whose `insert` replaces an
existing binding, machine integers (`u64`) become `Nat`, file-system and
subprocess interactions become explicit oracle parameters, and a `panic!`
(process abort) is represented by an `Option`-valued result being `none`.
-/

/- Association-list model of `std::collections::HashMap<String, A>`.
`hmInsert` replaces any previous binding of the key (HashMap::insert). -/
abbrev HMap (α : Type) : Type := List (String × α)

def hmInsert {α : Type} (m : HMap α) (k : String) (v : α) : HMap α :=
  (k, v) :: m.filter (fun q => q.1 != k)

/- `struct FileLog { size_prev: u64, size_post: u64, modified: u64 }` -/
structure FileLog where
  size_prev : Nat
  size_post : Nat
  modified : Nat
deriving DecidableEq

/- `enum SkipReason`: the error payload `std::io::Error` is embedded as the
string it displays as. -/
inductive SkipReason where
  | Metadata : String → SkipReason
  | ReadDir : String → SkipReason
  | Override : String → SkipReason
  | OpeningCompressedFile : String → SkipReason
deriving DecidableEq

/- `impl Display for SkipReason` -/
def SkipReason.display : SkipReason → String
  | .Metadata e => "Failed to read metadata: " ++ e
  | .ReadDir e => "Failed to read directory: " ++ e
  | .Override e => "Failed to override file: " ++ e
  | .OpeningCompressedFile e => "Failed to open compressed file to read size: " ++ e

/- `struct Log`.  All three maps derive `Serialize`/`Deserialize` in the
source; only `save_file` is marked `#[serde(skip)]`. -/
structure Log where
  shrunk_files : HMap FileLog
  added_files : HMap FileLog
  skipped_files : HMap String
  save_file : String
deriving DecidableEq

/- The serialized content of a `Log`: exactly the fields that are NOT marked
`#[serde(skip)]` in the source, i.e. all three maps but not `save_file`. -/
structure LogData where
  shrunk_files : HMap FileLog
  added_files : HMap FileLog
  skipped_files : HMap String
deriving DecidableEq

def Log.toData (log : Log) : LogData :=
  ⟨log.shrunk_files, log.added_files, log.skipped_files⟩

/- Deserializing `LogData` yields a `Log` whose skipped `save_file` field is
`String::default()`, i.e. the empty string. -/
def LogData.toLog (d : LogData) : Log :=
  ⟨d.shrunk_files, d.added_files, d.skipped_files, ""⟩

/- `Log::new(path)`.  The file-system interaction is an oracle:
`none` models `File::open` failing, `some none` models `serde_json` failing to
parse the opened file, `some (some d)` models a successful parse of content
`d`.  In every case a `Log` is returned (the source never propagates an
error from this path). -/
def Log.new (path : String) (file : Option (Option LogData)) : Log :=
  let path := path ++ "/compression_log.json"
  match file with
  | some (some cache) => { cache.toLog with save_file := path }
  | some none => ⟨[], [], [], path⟩
  | none => ⟨[], [], [], path⟩

/- `Log::is_already_processed(path, modified_time)` -/
def Log.is_already_processed (log : Log) (path : String) (modified_time : Nat) : Bool :=
  (List.lookup path log.shrunk_files).isSome &&
    match List.lookup path log.shrunk_files with
    | some r => decide (r.modified ≥ modified_time)
    | none => false

/- `Log::mark_processed(path, prev, post)`.  `now` is the oracle for the
successful `SystemTime::now()` read (a failed clock read panics in the
source and is outside this definition). -/
def Log.mark_processed (log : Log) (path : String) (prev post now : Nat) : Log :=
  let file_log : FileLog := ⟨prev, post, now⟩
  { log with
      shrunk_files := hmInsert log.shrunk_files path file_log
      added_files := hmInsert log.added_files path file_log }

/- `Log::mark_skipped(path, reason)`: stores `reason.to_string()` keyed by
path in the `skipped_files` HashMap (a second insert replaces the first). -/
def Log.mark_skipped (log : Log) (path : String) (reason : SkipReason) : Log :=
  { log with skipped_files := hmInsert log.skipped_files path reason.display }

/- `Log::display_filesize(size)`.  The source casts `u64` to `f64` and only
divides by 1024, which is exact in binary floating point for these
magnitudes, so the arithmetic is embedded in `ℚ`.  The final `format!` string
is embedded as the (scaled value, unit) pair it renders. -/
def Log.display_filesize (sz : Nat) : ℚ × String :=
  let size : ℚ := sz
  let unit : String := "B"
  let p1 : ℚ × String := if size > 1024 then (size / 1024, "KB") else (size, unit)
  let p2 : ℚ × String := if p1.1 > 1024 then (p1.1 / 1024, "MB") else p1
  let p3 : ℚ × String := if p2.1 > 1024 then (p2.1 / 1024, "GB") else p2
  p3

/- Outcome of `Log::save`: the function either returns normally or the
process panics. -/
inductive SaveOutcome where
  | returned
  | panicked
deriving DecidableEq

/- `Log::save()`.  `createOk` is the oracle for `File::create(self.save_file)`,
`writeOk` for `log_file.write(..)`.  The second component is the data that
ended up durably written (`none` when nothing was fully written).  In the
source, a failed create is silently ignored (`if let Ok(..) = .. { .. }` with
no else branch) and only a failed write panics. -/
def Log.save (log : Log) (createOk : Bool) (writeOk : Bool) : SaveOutcome × Option LogData :=
  if createOk then
    if writeOk then (.returned, some log.toData) else (.panicked, none)
  else (.returned, none)

/- The `filetype_check!` macro expanded at its single use site
`filetype_check!(path, ".mp4", ".mov")`:
`(path.ends_with(".mp4") || path.ends_with(".mov")) &&
 !(path.ends_with(".mp4_x265.mp4") || path.ends_with(".mov_x265.mp4"))`.
`str::ends_with` is embedded as list-suffix on the characters. -/
def strEndsWith (s suffix : String) : Bool :=
  suffix.toList.isSuffixOf s.toList

def filetype_check (path : String) : Bool :=
  (strEndsWith path (".mp4") || strEndsWith path (".mov")) &&
    !(strEndsWith path (".mp4" ++ "_x265.mp4") || strEndsWith path (".mov" ++ "_x265.mp4"))

/- Elements of the fixed pattern
`time=(\d+):(\d+):(\d+).*speed=(\d+).(\d+)` compiled in `compress`:
a literal, a captured greedy `(\d+)`, an uncaptured single `.`, and an
uncaptured greedy `.*` (the regex crate's `.` matches any character except a
newline). -/
inductive RElem where
  | lit : List Char → RElem
  | digits : RElem
  | anyOne : RElem
  | anyStar : RElem

/- Backtracking matcher for a pattern at the current position, with the
regex crate's leftmost-first and greedy semantics: a greedy piece first
consumes as much as possible and gives characters back one at a time.
Returns the list of captured groups on success. -/
def matchHere : List RElem → List Char → Option (List (List Char))
  | [], _ => some []
  | .lit s :: es, cs =>
      if s.isPrefixOf cs then matchHere es (cs.drop s.length) else none
  | .anyOne :: es, cs =>
      match cs with
      | [] => none
      | c :: cs' => if c = '\n' then none else matchHere es cs'
  | .digits :: es, cs =>
      let m := (cs.takeWhile Char.isDigit).length
      ((List.range m).map (fun i => m - i)).findSome?
        (fun n => (matchHere es (cs.drop n)).map (fun caps => cs.take n :: caps))
  | .anyStar :: es, cs =>
      let m := (cs.takeWhile (fun c => c != '\n')).length
      ((List.range (m + 1)).map (fun i => m - i)).findSome?
        (fun n => matchHere es (cs.drop n))

/- Leftmost match: try each start position from the left. -/
def searchCaptures (p : List RElem) : List Char → Option (List (List Char))
  | [] => matchHere p []
  | c :: cs =>
      match matchHere p (c :: cs) with
      | some caps => some caps
      | none => searchCaptures p cs

def timePattern : List RElem :=
  [.lit ("time=".toList), .digits, .lit [':'], .digits, .lit [':'], .digits,
   .anyStar, .lit ("speed=".toList), .digits, .anyOne, .digits]

/- `str::parse::<u64>` on a captured all-digit group. -/
def digitsVal (cs : List Char) : Nat :=
  cs.foldl (fun acc c => 10 * acc + (c.toNat - Char.toNat '0')) 0

/- `time_regex.captures(&buffer)` followed by the five `parse` calls in
`compress`: group 1 is the hour, 2 the minute, 3 the second, 4 the integer
part of the speed, 5 its fractional part. -/
def timeRegexCaptures (cs : List Char) : Option (Nat × Nat × Nat × Nat × Nat) :=
  match searchCaptures timePattern cs with
  | some [h, m, s, a, b] => some (digitsVal h, digitsVal m, digitsVal s, digitsVal a, digitsVal b)
  | _ => none

/- State of the progress loop in `compress`: the accumulation buffer and the
list of progress-line updates (`eprint!("\rProgress: ..")`) issued so far, in
order, as the (hour, minute, second, speed-integer, speed-fraction) tuples
they print.  The initial `eprint!("Progress: 00:00:00")` line is not an
update and is not recorded. -/
structure ProgressState where
  buffer : List Char
  displays : List (Nat × Nat × Nat × Nat × Nat)

/- One iteration of `for byte in stderr.bytes()` in `compress`: push the
byte, and if the regex matches the buffer, extract the captures, print an
updated progress line, and clear the buffer.  There is no comparison with
any previously displayed timestamp. -/
def progressStep (st : ProgressState) (c : Char) : ProgressState :=
  let buffer := st.buffer ++ [c]
  if (timeRegexCaptures buffer).isSome then
    match timeRegexCaptures buffer with
    | some caps => ⟨[], st.displays ++ [caps]⟩
    | none => ⟨buffer, st.displays⟩
  else ⟨buffer, st.displays⟩

/- Run the progress loop of `compress` over a sequence of input chunks fed
byte by byte from the encoder's diagnostic stream. -/
def runProgress (chunks : List String) : ProgressState :=
  chunks.foldl (fun st s => s.toList.foldl progressStep st) ⟨[], []⟩

/- Compile-time platform selection (`cfg!(unix)` / `cfg!(windows)`). -/
inductive Platform where
  | unix
  | windows
deriving DecidableEq

/- Oracle for reading the size of the transcoded output in `process_file`:
`openErr` models `File::open(dest)` failing, `metaErr` models
`file.metadata()` failing, `ok len` a successful read of the size. -/
inductive PostSizeResult where
  | openErr : String → PostSizeResult
  | metaErr : String → PostSizeResult
  | ok : Nat → PostSizeResult
deriving DecidableEq

/- Oracles for the external interactions of one transcode job:
whether `Command::new("ffmpeg").spawn()` (with a usable stderr) succeeds,
the outcome of reading the output file's size, and the result of spawning
the platform replace command (`mv` / `move`): `none` means the spawn
succeeded, `some e` that it failed with error text `e`. -/
structure JobEnv where
  ffmpegSpawn : Bool
  postSize : PostSizeResult
  mvSpawn : Option String
deriving DecidableEq

/- Result of `process_file`: the returned `Result<u64, ()>`, the ledger
after the job's `mark_skipped` calls, and the list of files the job deleted
from disk (the source never deletes anything, so this is `[]` on every
path; it records that a failed replace leaves the transcoded output on
disk). -/
structure JobResult where
  result : Except Unit Nat
  log : Log
  deleted : List String

/- `process_file(path_buf, log)`.  The destination path is the original
file name with the reserved marker appended (`set_file_name(name + "_x265.mp4")`).
A failed ffmpeg spawn runs `log.save()` and then panics, aborting the whole
process: that is the `none` result.  `print_video_length` is best-effort
and has no effect on the job's outcome. -/
def process_file (path : String) (env : JobEnv) (plat : Platform) (log : Log) :
    Option JobResult :=
  if env.ffmpegSpawn then
    match env.postSize with
    | .openErr e =>
        some ⟨.error (), log.mark_skipped path (SkipReason.OpeningCompressedFile e), []⟩
    | .metaErr e =>
        some ⟨.error (), log.mark_skipped path (SkipReason.Metadata e), []⟩
    | .ok post_size =>
        match plat with
        | .unix =>
            match env.mvSpawn with
            | some e => some ⟨.error (), log.mark_skipped path (SkipReason.Override e), []⟩
            | none => some ⟨.ok post_size, log, []⟩
        | .windows =>
            match env.mvSpawn with
            | some e => some ⟨.error (), log.mark_skipped path (SkipReason.Override e), []⟩
            | none => some ⟨.ok post_size, log, []⟩
  else none

/- One entry yielded by `std::fs::read_dir`, with its metadata oracles
resolved: `errEntry` is an `Err` entry (silently skipped), `metaErr` a
failed `dir_entry.metadata()`, `modErr` a failed `metadata.modified()`,
`timeErr` a failed `duration_since(UNIX_EPOCH)` (which panics), `file` a
regular file with its modified time and length, and `dir` a subdirectory
whose own `read_dir` either failed (`Except.error`) or yielded entries. -/
inductive Entry where
  | errEntry : Entry
  | metaErr : String → String → Entry
  | modErr : String → String → Entry
  | timeErr : String → String → Entry
  | file : String → Nat → Nat → Entry
  | dir : String → Nat → Except String (List Entry) → Entry

/- The body of `iterate_dir`'s `for dir_entry in read_dir` loop.  The second
component of the result is the list of paths handed to `process_file`, in
order; a `none` first component is a process abort (panic).  `env` maps each
path to its job's oracles, `now` is the wall clock used by
`mark_processed`, and the `log.save()` after each success only writes to
disk and leaves the in-memory ledger unchanged. -/
def iterate_entries : List Entry → (String → JobEnv) → Nat → Platform → Log →
    Option Log × List String
  | [], _, _, _, log => (some log, [])
  | .errEntry :: rest, env, now, plat, log => iterate_entries rest env now plat log
  | .metaErr p e :: rest, env, now, plat, log =>
      iterate_entries rest env now plat (log.mark_skipped p (SkipReason.Metadata e))
  | .modErr p e :: rest, env, now, plat, log =>
      iterate_entries rest env now plat (log.mark_skipped p (SkipReason.Metadata e))
  | .timeErr _ _ :: _, _, _, _, _ => (none, [])
  | .dir p _ (.error e) :: rest, env, now, plat, log =>
      iterate_entries rest env now plat (log.mark_skipped p (SkipReason.ReadDir e))
  | .dir _ _ (.ok es) :: rest, env, now, plat, log =>
      match iterate_entries es env now plat log with
      | (none, tr) => (none, tr)
      | (some log', tr) =>
          let r := iterate_entries rest env now plat log'
          (r.1, tr ++ r.2)
  | .file p modified len :: rest, env, now, plat, log =>
      if log.is_already_processed p modified then iterate_entries rest env now plat log
      else if filetype_check p then
        match process_file p (env p) plat log with
        | none => (none, [p])
        | some jr =>
            match jr.result with
            | .ok post =>
                let r := iterate_entries rest env now plat
                  (jr.log.mark_processed p len post now)
                (r.1, p :: r.2)
            | .error _ =>
                let r := iterate_entries rest env now plat jr.log
                (r.1, p :: r.2)
      else iterate_entries rest env now plat log

/- `iterate_dir(path, log)`: a failing `read_dir` records a `ReadDir` skip
for the directory itself and returns; otherwise the entry loop runs. -/
def iterate_dir (path : String) (contents : Except String (List Entry))
    (env : String → JobEnv) (now : Nat) (plat : Platform) (log : Log) :
    Option Log × List String :=
  match contents with
  | .error e => (some (log.mark_skipped path (SkipReason.ReadDir e)), [])
  | .ok es => iterate_entries es env now plat log

/- Metadata oracle for the branch of `main` where the root path names a
single file rather than a directory. -/
inductive RootMeta where
  | metaErr : String → RootMeta
  | modErr : String → RootMeta
  | timeErr : String → RootMeta
  | ok : Nat → Nat → RootMeta
deriving DecidableEq

/- The root-is-a-file branch of `main` (after the ledger was loaded from the
root's parent directory): note that, unlike the directory walk, it hands the
path to `process_file` without any `filetype_check!`.  The second component
again lists the paths handed to `process_file`. -/
def main_file (path : String) (meta : RootMeta) (env : JobEnv) (now : Nat)
    (plat : Platform) (log : Log) : Option Log × List String :=
  match meta with
  | .metaErr e => (some (log.mark_skipped path (SkipReason.Metadata e)), [])
  | .modErr e => (some (log.mark_skipped path (SkipReason.Metadata e)), [])
  | .timeErr _ => (none, [])
  | .ok modified len =>
      if log.is_already_processed path modified then (some log, [])
      else
        match process_file path env plat log with
        | none => (none, [path])
        | some jr =>
            match jr.result with
            | .ok post => (some (jr.log.mark_processed path len post now), [path])
            | .error _ => (some jr.log, [path])

/- Modelled from the spec's words (specification-side definition, for
comparison with `Log.display_filesize`): "unit scaling picks B/KB/MB/GB via
repeated division by 1024 while the value exceeds 1024, capped at GB" —
divide by 1024 and move to the next unit while the value exceeds 1024 and a
larger unit remains. -/
def specScale : ℚ → List String → ℚ × String
  | v, [] => (v, "B")
  | v, [u] => (v, u)
  | v, u :: u' :: us => if v > 1024 then specScale (v / 1024) (u' :: us) else (v, u)

/- Concrete fixtures used by witnesses and counterexamples. -/
def emptyLog : Log := ⟨[], [], [], ""⟩

def oneRecordLog : Log := ⟨[("a.mp4", ⟨10, 5, 100⟩)], [], [], ""⟩

def okJobEnv : JobEnv := ⟨true, .ok 50, none⟩

def c4Tree : List Entry := [.file ("d/clip.mp4") 7 100]

def c4EnvMap : String → JobEnv := fun _ => okJobEnv

/-- C1 counterexample: the claim says the displayed progress line is updated
only when the new (hour, minute, second) tuple is lexicographically greater
than the last displayed one, so on the sequence `time=00:00:05 speed=1.2`,
`time=00:00:03 speed=1.1` the second (regressive) input must not update the
display.  In the code there is no such comparison: after the two inputs the
progress line has been updated twice, the second update showing the
regressed timestamp 00:00:03. -/
theorem c1_progress_counterexample :
    (runProgress [("time=00:00:05 speed=1.2"), ("time=00:00:03 speed=1.1")]).displays =
      [(0, 0, 5, 1, 2), (0, 0, 3, 1, 1)] := by
  decide

/-- C1 amended: the progress loop keeps no last-displayed tuple and performs
no lexicographic comparison; every input whose bytes complete a match of the
`time=..speed=..` pattern updates the displayed progress line (and the
buffer is cleared after each match).  For the input sequence
`time=00:00:05 speed=1.2`, `time=00:00:03 speed=1.1`, `time=00:00:10 speed=2.0`
the display is updated on all three inputs, in order, including the
regressive second one. -/
theorem c1_progress_updates_every_match :
    (runProgress [("time=00:00:05 speed=1.2"), ("time=00:00:03 speed=1.1"),
        ("time=00:00:10 speed=2.0")]).displays =
      [(0, 0, 5, 1, 2), (0, 0, 3, 1, 1), (0, 0, 10, 2, 0)] ∧
    (runProgress [("time=00:00:05 speed=1.2"), ("time=00:00:03 speed=1.1"),
        ("time=00:00:10 speed=2.0")]).buffer = [] := by
  constructor
  · decide
  · decide

/-- C2 counterexample: the claim says any failure of the persist operation,
including inability to open or create the state file for writing, aborts the
process.  In the code a failed `File::create` is silently ignored: `save`
returns normally and nothing is persisted. -/
theorem c2_save_counterexample :
    (emptyLog.save false true).1 = SaveOutcome.returned ∧
      (emptyLog.save false true).2 = none := by
  constructor
  · rfl
  · rfl

/-- C2 amended: only a failed `write` to a successfully created state file is
fatal (the process panics after the attempted flush); a failure to open or
create the state file for writing is silently ignored — `save` returns
normally having persisted nothing.  A successful create and write persists
the serialized ledger and returns normally. -/
theorem c2_save_write_failure_fatal :
    ∀ (log : Log) (writeOk : Bool),
      (log.save true false).1 = SaveOutcome.panicked ∧
        log.save false writeOk = (SaveOutcome.returned, none) ∧
        log.save true true = (SaveOutcome.returned, some log.toData) := by
  intro log writeOk
  exact ⟨rfl, rfl, rfl⟩

/-- C3 counterexample: the claim says persisting and then loading yields a
ledger whose transient skip and newly-added views are empty regardless of
their contents before the persist.  But the `Serialize` derive on `Log`
covers `skipped_files` and `added_files` (only `save_file` carries
`#[serde(skip)]`), so a ledger holding one skip entry round-trips with that
entry intact. -/
theorem c3_persist_counterexample :
    (Log.new ("root")
        (some (some (Log.toData ⟨[], [], [("a", "r")], "s"⟩)))).skipped_files ≠ [] := by
  decide

/-- C3 amended: persist serializes all three maps — the durable
path-to-record map and both per-run views (`added_files`, `skipped_files`);
only the `save_file` path is excluded from serialization.  Persisting and
then loading therefore yields a ledger whose skip and newly-added views
equal their contents at persist time (the views are only emptied by the
report cycle, not by persistence). -/
theorem c3_persist_keeps_transient_views :
    ∀ (log : Log) (root : String),
      Log.new root (some (some log.toData)) =
        ⟨log.shrunk_files, log.added_files, log.skipped_files,
          root ++ "/compression_log.json"⟩ := by
  intro log root
  rfl

/-- C8 confirmed: `Log::new` is total — for every root path it returns a
ledger, and both failure modes of the durable state file (missing or
unopenable, modelled by the `none` oracle, and unparsable, modelled by
`some none`) yield the fresh empty ledger pointed at the root's state-file
path; no error is raised to the caller. -/
theorem c8_load_never_fails :
    ∀ (root : String),
      Log.new root none = ⟨[], [], [], root ++ "/compression_log.json"⟩ ∧
        Log.new root (some none) = ⟨[], [], [], root ++ "/compression_log.json"⟩ := by
  intro root
  exact ⟨rfl, rfl⟩

/-- C6 confirmed: `is_already_processed(path, signal)` returns true exactly
when a record exists for the path and its stored `modified` stamp is greater
than or equal to the signal; and whenever the signal is strictly above the
stored stamp, the path is reported as not processed (eligible again). -/
theorem c6_freshness_gating :
    ∀ (log : Log) (path : String) (t : Nat),
      (log.is_already_processed path t = true ↔
        ∃ r, List.lookup path log.shrunk_files = some r ∧ t ≤ r.modified) ∧
      (∀ r, List.lookup path log.shrunk_files = some r → r.modified < t →
        log.is_already_processed path t = false) := by
  intro log path t
  unfold Log.is_already_processed
  cases h : List.lookup path log.shrunk_files with
  | none =>
      refine ⟨?_, ?_⟩
      · simp
      · intro r hr
        simp [h] at hr
  | some r =>
      refine ⟨?_, ?_⟩
      · simp [ge_iff_le]
      · intro r' hr' hlt
        obtain rfl : r = r' := by simpa using hr'
        simp [ge_iff_le]
        omega

/-- C6 witness: applying the freshness theorem to the concrete one-record
ledger `oneRecordLog` (record stamped 100): a signal of 100 reports the path
as processed, and raising the signal to 101 makes it eligible again. -/
theorem c6_freshness_witness :
    oneRecordLog.is_already_processed ("a.mp4") 100 = true ∧
      oneRecordLog.is_already_processed ("a.mp4") 101 = false := by
  constructor
  · exact (c6_freshness_gating oneRecordLog ("a.mp4") 100).1.mpr ⟨⟨10, 5, 100⟩, by decide, by decide⟩
  · exact (c6_freshness_gating oneRecordLog ("a.mp4") 101).2 ⟨10, 5, 100⟩ (by decide) (by decide)

/-- C10 confirmed: skip storage is a HashMap keyed by path, so marking the
same path skipped twice is the same ledger mutation as marking it once with
the second reason: the resulting ledgers are equal, the entry for the path
holds the display string of the second reason, and exactly one entry exists
for that path. -/
theorem c10_mark_skipped_last_wins :
    ∀ (log : Log) (p : String) (r1 r2 : SkipReason),
      (log.mark_skipped p r1).mark_skipped p r2 = log.mark_skipped p r2 ∧
      List.lookup p ((log.mark_skipped p r1).mark_skipped p r2).skipped_files =
        some r2.display ∧
      ((log.mark_skipped p r1).mark_skipped p r2).skipped_files.countP
        (fun q => q.1 == p) = 1 := by
  intro log p r1 r2
  unfold Log.mark_skipped hmInsert
  refine ⟨?_, ?_, ?_⟩
  · congr 1
    simp [List.filter_filter]
  · simp [List.lookup]
  · simp only [List.countP_cons, beq_self_eq_true, if_pos]
    have hz : ∀ (l : HMap String),
        (l.filter (fun q => q.1 != p)).countP (fun q => q.1 == p) = 0 := by
      intro l
      rw [List.countP_eq_zero]
      intro a ha
      have := List.of_mem_filter ha
      simpa using this
    simp [List.filter_cons, hz]

/-- C9 confirmed: for every byte count the cascade of `if size > 1024`
divisions in `display_filesize` computes exactly the spec's algorithm —
repeatedly divide by 1024 and move up through B, KB, MB, GB while the value
exceeds 1024, capped at GB.  In particular a value of exactly 1024 at a
stage is not divided further: 1024 bytes display as 1024 B and 1024·1024
bytes display as 1024 KB. -/
theorem c9_display_filesize_scaling :
    (∀ n : Nat,
        Log.display_filesize n = specScale (n : ℚ) [("B"), ("KB"), ("MB"), ("GB")]) ∧
      Log.display_filesize 1024 = ((1024 : ℚ), "B") ∧
      Log.display_filesize (1024 * 1024) = ((1024 : ℚ), "KB") := by
  refine ⟨?_, ?_, ?_⟩
  · intro n
    simp only [Log.display_filesize]
    by_cases h1 : (1024 : ℚ) < (n : ℚ)
    · by_cases h2 : (1024 : ℚ) < (n : ℚ) / 1024
      · by_cases h3 : (1024 : ℚ) < (n : ℚ) / 1024 / 1024
        · simp [specScale, h1, h2, h3]
        · simp [specScale, h1, h2, h3]
      · simp [specScale, h1, h2]
    · simp [specScale, h1]
  · norm_num [Log.display_filesize]
  · norm_num [Log.display_filesize, specScale]

/-- C5 confirmed: given that the encoder subprocess could be spawned (the
job runs to its replace step at all), (a) whenever the output size was read
and the spawn of the platform replace command fails, `process_file` returns
the tagged failure classified `Override` ("Failed to override file"),
recorded in the skip map, and deletes nothing — the transcoded output stays
on disk; (b) the job returns success only if the replace spawn succeeded. -/
theorem c5_override_failure_tagged :
    ∀ (p : String) (env : JobEnv) (plat : Platform) (log : Log),
      env.ffmpegSpawn = true →
      ((∀ len e, env.postSize = PostSizeResult.ok len → env.mvSpawn = some e →
          process_file p env plat log =
            some ⟨Except.error (), log.mark_skipped p (SkipReason.Override e), []⟩) ∧
        (∀ jr n, process_file p env plat log = some jr → jr.result = Except.ok n →
          env.mvSpawn = none)) := by
  intro p env plat log hff
  obtain ⟨ff, ps, mv⟩ := env
  simp only at hff
  subst hff
  constructor
  · intro len e hps hmv
    simp only at hps hmv
    subst hps
    subst hmv
    cases plat <;> rfl
  · intro jr n hpf hres
    cases ps with
    | openErr e =>
        simp only [process_file, if_pos] at hpf
        cases hpf
        simp at hres
    | metaErr e =>
        simp only [process_file, if_pos] at hpf
        cases hpf
        simp at hres
    | ok len =>
        cases hmv : mv with
        | none => rfl
        | some e =>
            subst hmv
            cases plat <;>
              · simp only [process_file, if_pos] at hpf
                cases hpf
                simp at hres

/-- C5 witness: the override-failure theorem applied to a concrete job whose
replace spawn fails with error text `denied`: the job returns the tagged
`Override` failure, the skip map records it, and the deletion list is empty
(the transcoded output remains on disk). -/
theorem c5_override_failure_witness :
    process_file ("a.mp4") ⟨true, PostSizeResult.ok 50, some ("denied")⟩ Platform.unix emptyLog =
      some ⟨Except.error (),
        emptyLog.mark_skipped ("a.mp4") (SkipReason.Override ("denied")), []⟩ :=
  (c5_override_failure_tagged ("a.mp4") ⟨true, PostSizeResult.ok 50, some ("denied")⟩
      Platform.unix emptyLog rfl).1 50 ("denied") rfl rfl

/-- C7 confirmed: whenever `process_file` returns a tagged failure (output
file unreadable, its metadata unreadable, or replace-spawn failure), the
ledger it returns has the durable `shrunk_files` map and the per-run
`added_files` view unchanged — the file is not marked processed, so it is
retried on the next invocation; only the success path of the caller invokes
`mark_processed`. -/
theorem c7_failure_leaves_record_unchanged :
    ∀ (p : String) (env : JobEnv) (plat : Platform) (log : Log) (jr : JobResult),
      process_file p env plat log = some jr →
      jr.result = Except.error () →
      jr.log.shrunk_files = log.shrunk_files ∧ jr.log.added_files = log.added_files := by
  intro p env plat log jr hpf _
  obtain ⟨ff, ps, mv⟩ := env
  cases ff with
  | false => simp [process_file] at hpf
  | true =>
      cases ps with
      | openErr e =>
          simp only [process_file, if_pos] at hpf
          cases hpf
          exact ⟨rfl, rfl⟩
      | metaErr e =>
          simp only [process_file, if_pos] at hpf
          cases hpf
          exact ⟨rfl, rfl⟩
      | ok len =>
          cases mv with
          | none =>
              cases plat <;>
                · simp only [process_file, if_pos] at hpf
                  cases hpf
                  exact ⟨rfl, rfl⟩
          | some e =>
              cases plat <;>
                · simp only [process_file, if_pos] at hpf
                  cases hpf
                  exact ⟨rfl, rfl⟩

/-- C7 witness: the theorem applied to a concrete job whose transcoded
output could not be opened: the returned ledger's durable map and newly-added
view are those of the input ledger. -/
theorem c7_failure_witness :
    (emptyLog.mark_skipped ("b.mp4")
        (SkipReason.OpeningCompressedFile ("gone"))).shrunk_files = emptyLog.shrunk_files ∧
      (emptyLog.mark_skipped ("b.mp4")
        (SkipReason.OpeningCompressedFile ("gone"))).added_files = emptyLog.added_files :=
  c7_failure_leaves_record_unchanged ("b.mp4") ⟨true, PostSizeResult.openErr ("gone"), none⟩
    Platform.unix emptyLog
    ⟨Except.error (), emptyLog.mark_skipped ("b.mp4")
      (SkipReason.OpeningCompressedFile ("gone")), []⟩ rfl rfl

/- Helper for C4: every path handed to `process_file` by the entry loop of
the directory walk passes `filetype_check` (the loop tests the filter right
before handing the file over). -/
theorem iterateEntriesTraceFilter :
    ∀ (es : List Entry) (env : String → JobEnv) (now : Nat) (plat : Platform) (log : Log)
      (q : String), q ∈ (iterate_entries es env now plat log).2 → filetype_check q = true := by
  intro es env now plat log
  induction es, env, now, plat, log using iterate_entries.induct <;>
    intro q hq <;>
    simp_all [iterate_entries] <;>
    (first
      | tauto
      | (rcases hq with rfl | hq
         · assumption
         · tauto))

/-- C4 counterexample: the claim says every file handed to a transcode job —
including one named directly as the root path — satisfies the eligibility
filter.  But the root-is-a-file branch of `main` performs no
`filetype_check!`: a root path `clip.mp4_x265.mp4`, which bears the reserved
output marker and fails the filter, is handed to `process_file` anyway. -/
theorem c4_root_file_counterexample :
    (main_file ("clip.mp4_x265.mp4") (RootMeta.ok 0 100) okJobEnv 0 Platform.unix
        (Log.new (".") none)).2 = [("clip.mp4_x265.mp4")] ∧
      filetype_check ("clip.mp4_x265.mp4") = false := by
  constructor
  · rfl
  · decide

/-- C4 amended: every file handed to a transcode job by the directory
traversal satisfies the eligibility filter — its name ends with `.mp4` or
`.mov` and not with the reserved `_x265.mp4` output marker; in particular
`clip.mp4` passes the filter and `clip.mp4_x265.mp4` does not.  A file named
directly as the root path, however, bypasses the filter entirely and is
handed to the job after only the already-processed check. -/
theorem c4_traversal_satisfies_filter :
    (∀ (path : String) (contents : Except String (List Entry)) (env : String → JobEnv)
        (now : Nat) (plat : Platform) (log : Log) (q : String),
        q ∈ (iterate_dir path contents env now plat log).2 → filetype_check q = true) ∧
      filetype_check ("clip.mp4") = true ∧
      filetype_check ("clip.mp4_x265.mp4") = false := by
  refine ⟨?_, by decide, by decide⟩
  intro path contents env now plat log q hq
  cases contents with
  | error e => simp [iterate_dir] at hq
  | ok es => exact iterateEntriesTraceFilter es env now plat log q hq

/-- C4 witness: the amended theorem applied to a concrete one-file directory:
the single path handed to the job by the walk, `d/clip.mp4`, satisfies the
filter. -/
theorem c4_traversal_filter_witness : filetype_check ("d/clip.mp4") = true := by
  have h1 : filetype_check ("d/clip.mp4") = true := by decide
  have h2 : (Log.new ("d") none).is_already_processed ("d/clip.mp4") 7 = false := by decide
  have htr : (iterate_dir ("d") (.ok c4Tree) c4EnvMap 0 Platform.unix
      (Log.new ("d") none)).2 = [("d/clip.mp4")] := by
    simp [iterate_dir, c4Tree, iterate_entries, c4EnvMap, okJobEnv, process_file, h1, h2]
  exact c4_traversal_satisfies_filter.1 ("d") (.ok c4Tree) c4EnvMap 0 Platform.unix
    (Log.new ("d") none) ("d/clip.mp4") (by rw [htr]; exact List.mem_singleton.mpr rfl)
